import Mathlib

/-!
# Verification of the SVG template card builder

A shallow embedding of `app/services/card_builder_svg.py` (the template-driven
card compositor) and proofs of its specified properties.

Modelling conventions:
* Python floats are modelled as `ℚ` (exact rationals); `int(x)` is truncation
  toward zero (`Rat` numerator `tdiv` denominator).
* Python strings are modelled as `List Char` where character-level behaviour
  matters (split / strip / parsing), and as `String` for identifiers.
* `xml.etree.ElementTree` elements are modelled by the inductive `Elem`
  (tag, attributes, text, tail, children).  Attribute values are either raw
  strings or the exact numeric value the code stored via `str(float)`;
  `transform="scale(x y)"` strings are stored structurally as `.scale x y`
  (the `%.8f` formatting is treated as serialization of the computed factors).
* Code that can raise an uncaught exception (`ZeroDivisionError`,
  `ValueError` from `float(...)`) is modelled with `Option`, `none` being the
  propagated exception.
* PIL image decoding and the base64 data-URI encoding are external to the
  repository; supplied image bytes are abstracted as `ImageBytes`: the data
  URI `payload` that `_to_base64_uri` would produce, plus the decode result
  (`none` models a PIL decode error).
-/

namespace CardBuilder

set_option maxRecDepth 200000

/-- Python `int()` applied to a float value: truncation toward zero. -/
def pyTruncInt (q : ℚ) : ℤ := q.num.tdiv q.den

/-- The whitespace characters Python `str.split()` / `str.strip()` break on. -/
def isPySpace (c : Char) : Bool :=
  c == ' ' || c == '\t' || c == '\n' || c == '\x0d' || c == '\x0b' || c == '\x0c'

/-- Python `str.strip()`: drop leading and trailing whitespace. -/
def pyStrip (s : List Char) : List Char :=
  ((s.dropWhile isPySpace).reverse.dropWhile isPySpace).reverse

/-- Worker for `pySplit`, accumulating the current word reversed. -/
def pySplitAux : List Char → List Char → List (List Char)
  | [], acc => if acc = [] then [] else [acc.reverse]
  | c :: cs, acc =>
    if isPySpace c then
      if acc = [] then pySplitAux cs [] else acc.reverse :: pySplitAux cs []
    else pySplitAux cs (c :: acc)

/-- Python `str.split()` with no argument: split on runs of whitespace,
dropping empty fragments. -/
def pySplit (s : List Char) : List (List Char) := pySplitAux s []

/-- `text.replace("px", "")`: remove every (non-overlapping, left-to-right)
occurrence of the two-character substring `px`. -/
def removePx : List Char → List Char
  | 'p' :: 'x' :: cs => removePx cs
  | c :: cs => c :: removePx cs
  | [] => []

/-- Value of a decimal digit character. -/
def digitVal (c : Char) : ℕ := c.toNat - 48

/-- Accumulate a digit run into a natural number. -/
def natOfDigits (ds : List Char) : ℕ :=
  ds.foldl (fun n c => 10 * n + digitVal c) 0

/-- Python `float(s)` on an already-stripped string, restricted to plain
decimal literals `[+-] digits [. digits]` (at least one digit overall).
Exotic float syntax (exponents, `nan`, `inf`, underscores) is outside the
model; `none` is the `ValueError` Python raises on unparseable input. -/
def parseRat (s : List Char) : Option ℚ :=
  let core := fun (cs : List Char) (sign : ℚ) =>
    let intPart := cs.takeWhile Char.isDigit
    let rest := cs.dropWhile Char.isDigit
    match rest with
    | [] => if intPart = [] then none
            else some (sign * (natOfDigits intPart : ℚ))
    | '.' :: frac =>
      if frac.all Char.isDigit ∧ (intPart ≠ [] ∨ frac ≠ []) then
        some (sign * ((natOfDigits intPart : ℚ) +
          (natOfDigits frac : ℚ) / (10 : ℚ) ^ frac.length))
      else none
    | _ => none
  match s with
  | '-' :: cs => core cs (-1)
  | '+' :: cs => core cs 1
  | cs => core cs 1

/-- Attribute values: raw strings, numeric values written back via
`str(float)`, or a structural `scale(x y)` transform. -/
inductive AttrVal where
  | str (s : String)
  | num (q : ℚ)
  | scale (x y : ℚ)
deriving DecidableEq, Repr

/-- A parsed XML element (tag is the local name; namespaces are elided, and
the `xlink:href`/`href` attribute pair the code always sets together is
modelled as the single attribute `href`). -/
inductive Elem where
  | mk (tag : String) (attrs : List (String × AttrVal)) (text : Option String)
      (tail : Option String) (children : List Elem)

def Elem.tag : Elem → String
  | .mk t _ _ _ _ => t

def Elem.attrs : Elem → List (String × AttrVal)
  | .mk _ a _ _ _ => a

def Elem.text : Elem → Option String
  | .mk _ _ x _ _ => x

def Elem.tail : Elem → Option String
  | .mk _ _ _ x _ => x

def Elem.children : Elem → List Elem
  | .mk _ _ _ _ cs => cs

/-- `elem.get(name)`: first attribute with the given name. -/
def Elem.getAttr (e : Elem) (name : String) : Option AttrVal :=
  e.attrs.lookup name

/-- `elem.set(name, v)`: overwrite (or add) an attribute. -/
def Elem.setAttr (e : Elem) (name : String) (v : AttrVal) : Elem :=
  .mk e.tag ((name, v) :: e.attrs.filter (fun p => p.1 != name)) e.text e.tail
    e.children

def Elem.setText (e : Elem) (x : Option String) : Elem :=
  .mk e.tag e.attrs x e.tail e.children

def Elem.setTail (e : Elem) (x : Option String) : Elem :=
  .mk e.tag e.attrs e.text x e.children

def Elem.setChildren (e : Elem) (cs : List Elem) : Elem :=
  .mk e.tag e.attrs e.text e.tail cs

/-- The element's `id=` attribute, when it is a plain string. -/
def Elem.idAttr (e : Elem) : Option String :=
  match e.getAttr "id" with
  | some (.str s) => some s
  | _ => none

mutual
/-- `_find_by_id`: first element (document order) whose `id=` attribute
matches, searching the full tree. -/
def findById (i : String) : Elem → Option Elem
  | .mk t a x tl cs =>
    if (Elem.mk t a x tl cs).idAttr = some i then some (.mk t a x tl cs)
    else findByIdList i cs

def findByIdList (i : String) : List Elem → Option Elem
  | [] => none
  | c :: cs =>
    match findById i c with
    | some e => some e
    | none => findByIdList i cs
end

mutual
/-- In-place mutation of the element `_find_by_id` would return, modelled as
rewriting every element with that id (documents of interest have unique ids,
matching ElementTree's first-match semantics). -/
def updateById (i : String) (f : Elem → Elem) : Elem → Elem
  | .mk t a x tl cs =>
    if (Elem.mk t a x tl cs).idAttr = some i then f (.mk t a x tl cs)
    else .mk t a x tl (updateByIdList i f cs)

def updateByIdList (i : String) (f : Elem → Elem) : List Elem → List Elem
  | [] => []
  | c :: cs => updateById i f c :: updateByIdList i f cs
end

/-- Replace the first child satisfying the predicate. -/
def updateFirstChild (p : Elem → Bool) (f : Elem → Elem) : List Elem → List Elem
  | [] => []
  | c :: cs => if p c then f c :: cs else c :: updateFirstChild p f cs

/-- Remove the first child satisfying the predicate (`group_el.remove(rect_el)`
where the removed element is the first of its tag). -/
def removeFirstChild (p : Elem → Bool) : List Elem → List Elem
  | [] => []
  | c :: cs => if p c then cs else c :: removeFirstChild p cs

mutual
/-- Rewrite the first element (document order, as `root.iter()` yields them)
satisfying the predicate; the returned flag says whether one was found. -/
def updateFirstWhere (p : Elem → Bool) (f : Elem → Elem) : Elem → Elem × Bool
  | .mk t a x tl cs =>
    if p (.mk t a x tl cs) then (f (.mk t a x tl cs), true)
    else
      let r := updateFirstWhereList p f cs
      (.mk t a x tl r.1, r.2)

def updateFirstWhereList (p : Elem → Bool) (f : Elem → Elem) :
    List Elem → List Elem × Bool
  | [] => ([], false)
  | c :: cs =>
    let r := updateFirstWhere p f c
    if r.2 then (r.1 :: cs, true)
    else
      let rs := updateFirstWhereList p f cs
      (c :: rs.1, rs.2)
end

-- ── Layout constants (`card_builder_svg.py` module constants) ─────────

def LINE_HEIGHT : ℚ := 30
def TEXT_TO_IMAGE_GAP : ℚ := 20
def IMAGE_TO_SOURCE_GAP : ℚ := 16
def BOTTOM_PADDING : ℚ := 24
def DEFAULT_IMAGE_HEIGHT : ℚ := 300
def MIN_CARD_WIDTH : ℚ := 350
def MAX_CARD_WIDTH : ℚ := 800
def SIDE_PADDING : ℚ := 24

-- `app/config.py` constants used by the canvas composer.
def VIDEO_WIDTH : ℕ := 1080
def VIDEO_HEIGHT : ℕ := 1920
def CARD_MARGIN : ℕ := 50

-- ── Utility helpers ───────────────────────────────────────────────────

/-- Python `float(value)` applied to an attribute value (`float` itself strips
surrounding whitespace); `none` is the raised `ValueError`. -/
def pyFloatVal : AttrVal → Option ℚ
  | .str s => parseRat (pyStrip s.data)
  | .num q => some q
  | .scale _ _ => none

/-- `_get_float`: safely get a float attribute, stripping `px` if present;
absent, empty or unparseable values give the default. -/
def getFloat (e : Elem) (attr : String) (default : ℚ) : ℚ :=
  match e.getAttr attr with
  | none => default
  | some (.num q) => q
  | some (.scale _ _) => default
  | some (.str v) =>
    if v = "" then default
    else
      match parseRat (pyStrip (removePx v.data)) with
      | some q => q
      | none => default

/-- `_svg_dims`: `(width, height)` of the SVG root — explicit attributes,
then the `viewBox`, then the `w or 500, h or 800` defaults.  `none` models
the uncaught `ValueError` from `float(parts[2])` on a malformed `viewBox`. -/
def svgDims (root : Elem) : Option (ℚ × ℚ) :=
  let w := getFloat root "width" 0
  let h := getFloat root "height" 0
  let wh? : Option (ℚ × ℚ) :=
    if w = 0 ∨ h = 0 then
      match root.getAttr "viewBox" with
      | some (.str vb) =>
        if vb = "" then some (w, h)
        else
          let parts := pySplit (vb.data.map fun c => if c = ',' then ' ' else c)
          if parts.length = 4 then
            match parseRat (parts.getD 2 []), parseRat (parts.getD 3 []) with
            | some w2, some h2 => some (w2, h2)
            | _, _ => none
          else some (w, h)
      | _ => some (w, h)
    else some (w, h)
  wh?.map fun wh =>
    (if wh.1 = 0 then 500 else wh.1, if wh.2 = 0 then 800 else wh.2)

/-- The accumulation loop of `_wrap_text` (`cur` is the line being built;
`f"{cur} {w}".strip()` is `pyStrip (cur ++ ' ' :: w)`). -/
def wrapLoop (maxChars : ℤ) :
    List (List Char) → List (List Char) → List Char → List (List Char)
  | [], lines, cur => if cur = [] then lines else lines ++ [cur]
  | w :: ws, lines, cur =>
    let test := pyStrip (cur ++ ' ' :: w)
    if (test.length : ℤ) ≤ maxChars then wrapLoop maxChars ws lines test
    else if cur = [] then wrapLoop maxChars ws lines w
    else wrapLoop maxChars ws (lines ++ [cur]) w

/-- `_wrap_text`: word-wrap text into lines, each ≤ `max_chars`
(`return lines or [""]`). -/
def wrapText (text : List Char) (maxChars : ℤ) : List (List Char) :=
  let lines := wrapLoop maxChars (pySplit text) [] []
  if lines = [] then [[]] else lines

-- ── Text injection (`_inject_text` and `_read_tspan_coords`) ──────────

/-- `_read_tspan_coords`: prefer the first `tspan` child carrying a positive
x or y, else the `text` element's own attributes with defaults 24 / 120. -/
def readTspanCoords (textEl : Elem) : ℚ × ℚ :=
  match textEl.children.find? (fun child =>
      child.tag == "tspan" &&
        (decide (0 < getFloat child "x" 0) || decide (0 < getFloat child "y" 0))) with
  | some child => (getFloat child "x" 0, getFloat child "y" 0)
  | none => (getFloat textEl "x" 24, getFloat textEl "y" 120)

/-- `re.search(r"font-size:\s*(\d+)", style)`: scan for the literal
`font-size:`, skip whitespace, and capture a nonempty digit run; on a failed
capture the search resumes at the next position. -/
def reSearchFontSize : List Char → Option (List Char)
  | [] => none
  | c :: cs =>
    if ("font-size:".data).isPrefixOf (c :: cs) then
      let rest := ((c :: cs).drop 10).dropWhile isPySpace
      let digs := rest.takeWhile Char.isDigit
      if digs = [] then reSearchFontSize cs else some digs
    else reSearchFontSize cs

/-- The font size `_inject_text` resolves: the `font-size` attribute if
present and nonempty (parsed with `float` after stripping `px` — `none` is
the uncaught `ValueError`), else the digits captured from the `style`
attribute, else 22. -/
def resolveFontSize (el : Elem) : Option ℚ :=
  let styleFallback : Option ℚ :=
    match el.getAttr "style" with
    | some (.str st) =>
      match reSearchFontSize st.data with
      | some digs => some (natOfDigits digs : ℚ)
      | none => some 22
    | _ => some 22
  match el.getAttr "font-size" with
  | some (.str v) =>
    if v = "" then styleFallback
    else parseRat (pyStrip (removePx v.data))
  | some (.num q) => some q
  | some (.scale _ _) => none
  | none => styleFallback

/-- `chars_per_line = max(15, int(available_w / (font_size * 0.55)))` with
`available_w = svg_width - orig_x * 2`; `none` is the `ZeroDivisionError`
raised when the font size is zero. -/
def charsPerLine (svgWidth origX fontSize : ℚ) : Option ℤ :=
  if fontSize * (11 / 20) = 0 then none
  else some (max 15 (pyTruncInt ((svgWidth - origX * 2) / (fontSize * (11 / 20)))))

/-- Geometry `_inject_text` returns (`x`, `start_y`, `text_height`,
`num_lines`, `line_height`). -/
structure TextInfo where
  x : ℚ
  startY : ℚ
  textHeight : ℚ
  numLines : ℕ
  lineHeight : ℚ
deriving DecidableEq, Repr

/-- The replacement `tspan` children `_inject_text` creates: every line at
`x = orig_x`; the first line at `y = orig_y`, later lines advanced by
`dy = line_height`. -/
def mkTspans (origX origY lineHeight : ℚ) (lines : List (List Char)) :
    List Elem :=
  ((List.range lines.length).zip lines).map fun p =>
    Elem.mk "tspan"
      (if p.1 = 0 then [("x", .num origX), ("y", .num origY)]
       else [("x", .num origX), ("dy", .num lineHeight)])
      (some (String.mk p.2)) none []

/-- `_inject_text`: replace the content of `id="input_text"` with
word-wrapped `tspan` elements; a missing slot degrades to the documented
default geometry.  `none` models the uncaught exceptions of the font-size /
chars-per-line computation. -/
def injectText (root : Elem) (body : List Char) (svgWidth : ℚ) :
    Option (Elem × TextInfo) :=
  match findById "input_text" root with
  | none =>
    some (root, { x := 24, startY := 120, textHeight := LINE_HEIGHT,
                  numLines := 1, lineHeight := LINE_HEIGHT })
  | some el =>
    let xy := readTspanCoords el
    match resolveFontSize el with
    | none => none
    | some fontSize =>
      match charsPerLine svgWidth xy.1 fontSize with
      | none => none
      | some cpl =>
        let lineHeight := fontSize * (27 / 20)
        let lines := wrapText body cpl
        let newRoot := updateById "input_text"
          (fun e => ((e.setText none).setTail none).setChildren
            (mkTspans xy.1 xy.2 lineHeight lines)) root
        some (newRoot,
          { x := xy.1, startY := xy.2,
            textHeight := (lines.length : ℚ) * lineHeight,
            numLines := lines.length, lineHeight := lineHeight })

-- ── Image injection ───────────────────────────────────────────────────

/-- Supplied raw image bytes, abstracted: `payload` is the
`data:image/...;base64,...` URI `_to_base64_uri` produces from them, and
`decoded` is PIL's decode result (`none` models `Image.open` raising). -/
structure ImageBytes where
  payload : String
  decoded : Option (ℕ × ℕ)
deriving DecidableEq, Repr

/-- Geometry the image injectors return (`img_width`, `img_height`, `img_x`,
`img_y`, `natural_width`; when the Python dict lacks the `natural_width` key
the caller's `.get("natural_width", 0)` reads 0, which is the value stored
here in that case). -/
structure ImgInfo where
  imgWidth : ℚ
  imgHeight : ℚ
  imgX : ℚ
  imgY : ℚ
  naturalWidth : ℚ
deriving DecidableEq, Repr

/-- `re.search(r"url\(#([^)]+)\)", fill)`: first `url(#...)` reference with a
nonempty id closed by `)`. -/
def extractPatternId : List Char → Option String
  | [] => none
  | c :: cs =>
    if ("url(#".data).isPrefixOf (c :: cs) then
      let rest := (c :: cs).drop 5
      let body := rest.takeWhile (fun ch => ch != ')')
      if body.length ≠ 0 ∧ body.length < rest.length then some (String.mk body)
      else extractPatternId cs
    else extractPatternId cs

/-- The pattern id referenced by a `fill` attribute (absent attribute reads
as `""`, which matches nothing). -/
def fillPatternId (e : Elem) : Option String :=
  match e.getAttr "fill" with
  | some (.str f) => extractPatternId f.data
  | _ => none

/-- The proportional height and natural width the injectors compute inside
`try: aspect = pil.width / pil.height; img_h = img_w / aspect ...` — a failed
decode, or the `ZeroDivisionError` a zero dimension would raise, is caught
and leaves both values unchanged. -/
def proportionalHeight (decoded : Option (ℕ × ℕ)) (imgW imgH0 : ℚ) : ℚ × ℚ :=
  match decoded with
  | some (aw, ah) =>
    if aw = 0 ∨ ah = 0 then (imgH0, imgW)
    else (imgW * ah / aw, (aw : ℚ))
  | none => (imgH0, imgW)

/-- `_update_pattern_scale` applied to a direct `image` child of a pattern:
set payload and intrinsic size; recompute the transform only when the
pattern declares `patternContentUnits="objectBoundingBox"`.  Returns the
attribute rewrite and `none` when the scale division would raise. -/
def updatePatternScale (patternEl imageEl : Elem) (img : ImageBytes)
    (rectW rectH : ℚ) : Option (Elem → Elem) :=
  let _ := (rectW, rectH)   -- parameters the source accepts but never reads
  let aw := match img.decoded with
    | some p => (p.1 : ℚ)
    | none => getFloat imageEl "width" 1000
  let ah := match img.decoded with
    | some p => (p.2 : ℚ)
    | none => getFloat imageEl "height" 600
  let base := fun (c : Elem) =>
    ((c.setAttr "width" (.num aw)).setAttr "height" (.num ah)).setAttr
      "preserveAspectRatio" (.str "none")
  if patternEl.getAttr "patternContentUnits" = some (.str "objectBoundingBox") then
    if aw = 0 ∨ ah = 0 then none
    else some (fun c => (base c).setAttr "transform" (.scale (1 / aw) (1 / ah)))
  else some base

/-- The id a `use` element's href points at: `href[1:]` when the href
starts with `#`. -/
def hrefTarget (h : String) : Option String :=
  if h.startsWith "#" then some (h.drop 1) else none

/-- `_replace_pattern_image`: find the pattern by id, locate the `image` it
references (via the first `use` child's `#` href, or a directly nested
`image`), replace the payload and recompute the scale.  A missing pattern,
unusable `use`/`image`, or missing referenced image logs a warning and
leaves the tree unchanged; `none` models the uncaught `ZeroDivisionError`
when a scale divisor is zero. -/
def replacePatternImage (root : Elem) (patternId : String) (img : ImageBytes)
    (rectW rectH : ℚ) : Option Elem :=
  let _ := (rectW, rectH)   -- parameters the source accepts but never reads
  match findById patternId root with
  | none => some root
  | some patternEl =>
    let useEl? := patternEl.children.find? (fun c => c.tag == "use")
    let imageId? : Option String :=
      match useEl? with
      | some u =>
        match u.getAttr "href" with
        | some (.str h) => hrefTarget h
        | _ => none
      | none => none
    match imageId? with
    | none =>
      match patternEl.children.find? (fun c => c.tag == "image") with
      | some imageEl =>
        match updatePatternScale patternEl imageEl img rectW rectH with
        | none => none
        | some rewrite =>
          some (updateById patternId (fun pat => pat.setChildren
            (updateFirstChild (fun c => c.tag == "image")
              (fun c => rewrite (c.setAttr "href" (.str img.payload)))
              pat.children)) root)
      | none => some root
    | some imageId =>
      match findById imageId root with
      | none => some root
      | some imageEl =>
        let aw := match img.decoded with
          | some p => (p.1 : ℚ)
          | none => getFloat imageEl "width" 1000
        let ah := match img.decoded with
          | some p => (p.2 : ℚ)
          | none => getFloat imageEl "height" 600
        if aw = 0 ∨ ah = 0 then none
        else
          let root1 := updateById imageId (fun e =>
            (((e.setAttr "href" (.str img.payload)).setAttr "width" (.num aw)).setAttr
              "height" (.num ah)).setAttr "preserveAspectRatio" (.str "none")) root
          some (updateById patternId (fun pat => pat.setChildren
            (updateFirstChild (fun c => c.tag == "use")
              (fun u => u.setAttr "transform" (.scale (1 / aw) (1 / ah)))
              pat.children)) root1)

/-- `_convert_group_to_image`: replace the group's rect by a direct `image`
element carrying the payload and the computed size; `none` is the uncaught
`ValueError` of `float(rx)` on a malformed `rx` attribute. -/
def convertGroupToImage (groupEl rectEl : Elem) (img : ImageBytes)
    (width height : ℚ) : Option Elem :=
  match pyFloatVal ((rectEl.getAttr "rx").getD (.str "0")) with
  | none => none
  | some _ =>
    let imgEl := Elem.mk "image"
      [("x", (rectEl.getAttr "x").getD (.str "0")),
       ("y", (rectEl.getAttr "y").getD (.str "0")),
       ("width", .num width), ("height", .num height),
       ("href", .str img.payload),
       ("preserveAspectRatio", .str "xMidYMid meet")] none none []
    some (groupEl.setChildren
      (removeFirstChild (fun c => c.tag == "rect") groupEl.children ++ [imgEl]))

/-- Rewrite the rect child of the `main_image` group in place. -/
def updateMainRect (root : Elem) (f : Elem → Elem) : Elem :=
  updateById "main_image" (fun g => g.setChildren
    (updateFirstChild (fun c => c.tag == "rect") f g.children)) root

/-- `_inject_image_figma_group`: the `g → rect fill=url(#pattern) → pattern
→ use/image` chain.  After the pattern work (or the Direct conversion, which
detaches the rect so the final `rect.set("y", ...)` becomes a no-op) the
rect is moved to `new_y`. -/
def injectImageFigmaGroup (root groupEl : Elem) (img? : Option ImageBytes)
    (newY svgWidth : ℚ) : Option (Elem × ImgInfo) :=
  match groupEl.children.find? (fun c => c.tag == "rect") with
  | none =>
    some (root, { imgWidth := svgWidth * (9 / 10),
                  imgHeight := DEFAULT_IMAGE_HEIGHT,
                  imgX := svgWidth * (1 / 20), imgY := newY,
                  naturalWidth := svgWidth * (9 / 10) })
  | some rectEl =>
    let imgX := getFloat rectEl "x" (svgWidth * (1 / 20))
    let imgW := getFloat rectEl "width" (svgWidth * (9 / 10))
    let imgH0 := getFloat rectEl "height" DEFAULT_IMAGE_HEIGHT
    match img? with
    | none =>
      some (updateMainRect root (fun r => r.setAttr "y" (.num newY)),
        { imgWidth := imgW, imgHeight := imgH0, imgX := imgX, imgY := newY,
          naturalWidth := imgW })
    | some img =>
      let hn := proportionalHeight img.decoded imgW imgH0
      let root1 := updateMainRect root (fun r => r.setAttr "height" (.num hn.1))
      let root2? : Option Elem :=
        match fillPatternId rectEl with
        | some pid => replacePatternImage root1 pid img imgW hn.1
        | none =>
          match convertGroupToImage groupEl rectEl img imgW hn.1 with
          | none => none
          | some g2 => some (updateById "main_image" (fun _ => g2) root1)
      match root2? with
      | none => none
      | some root2 =>
        some (updateMainRect root2 (fun r => r.setAttr "y" (.num newY)),
          { imgWidth := imgW, imgHeight := hn.1, imgX := imgX, imgY := newY,
            naturalWidth := hn.2 })

/-- `_inject_image_simple`: a plain `image id="main_image"` element (the
`Direct` structural variant): embed the payload, recompute the proportional
height at the declared width, move to `new_y`. -/
def injectImageSimple (el : Elem) (img? : Option ImageBytes)
    (newY svgWidth : ℚ) : Elem × ImgInfo :=
  let imgX := getFloat el "x" (svgWidth * (1 / 20))
  let imgW := getFloat el "width" (svgWidth * (9 / 10))
  let imgH0 := getFloat el "height" DEFAULT_IMAGE_HEIGHT
  match img? with
  | none =>
    (el.setAttr "y" (.num newY),
     { imgWidth := imgW, imgHeight := imgH0, imgX := imgX, imgY := newY,
       naturalWidth := imgW })
  | some img =>
    let hn := proportionalHeight img.decoded imgW imgH0
    let el2 := ((((el.setAttr "href" (.str img.payload)).setAttr
      "width" (.num imgW)).setAttr "height" (.num hn.1)).setAttr
      "preserveAspectRatio" (.str "xMidYMid meet")).setAttr "y" (.num newY)
    (el2, { imgWidth := imgW, imgHeight := hn.1, imgX := imgX, imgY := newY,
            naturalWidth := hn.2 })

/-- `_inject_image`: dispatch on the slot's structural variant; a missing
slot degrades to default geometry (whose dict has no `natural_width` key, so
downstream `.get("natural_width", 0)` reads 0). -/
def injectImage (root : Elem) (img? : Option ImageBytes) (newY svgWidth : ℚ) :
    Option (Elem × ImgInfo) :=
  match findById "main_image" root with
  | none =>
    some (root, { imgWidth := svgWidth * (9 / 10),
                  imgHeight := DEFAULT_IMAGE_HEIGHT,
                  imgX := svgWidth * (1 / 20), imgY := newY,
                  naturalWidth := 0 })
  | some el =>
    if el.tag = "g" then injectImageFigmaGroup root el img? newY svgWidth
    else
      let r := injectImageSimple el img? newY svgWidth
      some (updateById "main_image" (fun _ => r.1) root, r.2)

-- ── Source injection, resize, main entry point ────────────────────────

/-- `_inject_source`: replace the text of `id="source"` with a single
`tspan` at the computed position; a missing slot is a warning only. -/
def injectSource (root : Elem) (sourceText : String) (newY : ℚ)
    (x? : Option ℚ) : Elem :=
  match findById "source" root with
  | none => root
  | some el =>
    let x := match x? with
      | some x => x
      | none =>
        let xy := readTspanCoords el
        if 0 < xy.1 then xy.1 else 24
    updateById "source" (fun e => ((e.setText none).setTail none).setChildren
      [Elem.mk "tspan" [("x", .num x), ("y", .num newY)]
        (some sourceText) none []]) root

/-- `_resize_svg`: update root width/height/viewBox (as `str(int(...))`) and
expand the first full-width, non-pattern-filled rect to the new height. -/
def resizeSvg (root : Elem) (svgWidth newHeight : ℚ) : Elem :=
  let wI := pyTruncInt svgWidth
  let hI := pyTruncInt newHeight
  let root1 := ((root.setAttr "width" (.num (wI : ℚ))).setAttr
    "height" (.num (hI : ℚ))).setAttr "viewBox"
    (.str ("0 0 " ++ toString wI ++ " " ++ toString hI))
  (updateFirstWhere (fun r =>
      r.tag == "rect" &&
      decide (svgWidth * (9 / 10) ≤ getFloat r "width" 0) &&
      !(match r.getAttr "fill" with
        | some (.str f) => f.startsWith "url("
        | _ => false))
    (fun r => r.setAttr "height" (.num (hI : ℚ))) root1).1

/-- `build_card_svg` after parsing: text, image and source injection, then
the dynamic dimension computation and `_resize_svg`.  Template loading and
the rasterization / canvas composition of steps 5–6 are external; the result
is the mutated tree with the final width and height handed to the
rasterizer.  `none` models an uncaught exception. -/
def buildCardGeom (root : Elem) (body : List Char)
    (relatedImage : Option ImageBytes) (imageSource : String) :
    Option (Elem × ℚ × ℚ) :=
  match svgDims root with
  | none => none
  | some (svgW, originalH) =>
    -- 1. inject text
    match injectText root body svgW with
    | none => none
    | some (root1, textInfo) =>
      let textBottom := textInfo.startY + textInfo.textHeight
      -- 2. inject image
      let imageY := textBottom + TEXT_TO_IMAGE_GAP
      match injectImage root1 relatedImage imageY svgW with
      | none => none
      | some (root2, imgInfo) =>
        let imageBottom := imgInfo.imgY + imgInfo.imgHeight
        -- 3. inject source
        let sourceText := if imageSource = "" then "source: web" else imageSource
        let sourceY := imageBottom + IMAGE_TO_SOURCE_GAP
        let root3 := injectSource root2 sourceText sourceY (some textInfo.x)
        -- 4. dynamic dimensions
        let newHeight := max (sourceY + BOTTOM_PADDING + 10) originalH
        let finalW :=
          match relatedImage with
          | some img =>
            if 0 < imgInfo.naturalWidth then
              match img.decoded with
              | some p =>
                if p.2 = 0 then svgW   -- ZeroDivisionError caught: pass
                else if (6 / 5 : ℚ) < (p.1 : ℚ) / (p.2 : ℚ) then
                  max (max svgW (min (imgInfo.imgWidth + SIDE_PADDING * 2)
                    MAX_CARD_WIDTH)) MIN_CARD_WIDTH
                else svgW
              | none => svgW           -- decode error caught: pass
            else svgW
          | none => svgW
        some (resizeSvg root3 finalW newHeight, finalW, newHeight)

/-- The final document height `build_card_svg` computes (step 4). -/
def buildFinalHeight (root : Elem) (body : List Char)
    (relatedImage : Option ImageBytes) (imageSource : String) : Option ℚ :=
  (buildCardGeom root body relatedImage imageSource).map (fun r => r.2.2)

-- ── Canvas composition (`_compose_on_canvas`) ─────────────────────────

/-- Geometry of `_compose_on_canvas`: the output canvas size, the resized
card size, and the paste position. -/
structure ComposeResult where
  outW : ℕ
  outH : ℕ
  newW : ℕ
  newH : ℕ
  x : ℕ
  y : ℕ
deriving DecidableEq, Repr

/-- `_compose_on_canvas`: place the rendered card (decoded size
`cardW × cardH`) on a `1080 × 1920` transparent canvas, scaled to fit inside
the margins and centered.  `none` is the `ZeroDivisionError` on a
zero-height card (PIL never produces one). -/
def composeOnCanvas (cardW cardH : ℕ) : Option ComposeResult :=
  if cardH = 0 then none
  else
    let targetW : ℕ := VIDEO_WIDTH - CARD_MARGIN * 2
    let targetH : ℕ := VIDEO_HEIGHT - CARD_MARGIN * 2
    let cardRatio : ℚ := (cardW : ℚ) / (cardH : ℚ)
    let targetRatio : ℚ := (targetW : ℚ) / (targetH : ℚ)
    let wh : ℕ × ℕ :=
      if targetRatio < cardRatio then
        (targetW, (pyTruncInt ((targetW : ℚ) / cardRatio)).toNat)
      else
        ((pyTruncInt ((targetH : ℚ) * cardRatio)).toNat, targetH)
    some { outW := VIDEO_WIDTH, outH := VIDEO_HEIGHT,
           newW := wh.1, newH := wh.2,
           x := (VIDEO_WIDTH - wh.1) / 2, y := (VIDEO_HEIGHT - wh.2) / 2 }

-- ── Demo and counterexample templates ─────────────────────────────────

/-- Root element of a template declaring negative dimensions. -/
def negDimsRoot : Elem :=
  .mk "svg" [("width", .str "-100"), ("height", .str "-50")] none none []

/-- Minimal demo template: explicit 400×800 dimensions, a text slot with a
tspan at (24, 120) and font size 22, a simple image slot and a source
slot. -/
def demoRoot : Elem := .mk "svg"
  [("width", .str "400"), ("height", .str "800")] none none
  [ .mk "rect" [("width", .str "400"), ("height", .str "800"),
      ("fill", .str "white")] none none [],
    .mk "text" [("id", .str "input_text"), ("font-size", .str "22")] none none
      [.mk "tspan" [("x", .str "24"), ("y", .str "120")] (some "old") none []],
    .mk "image" [("id", .str "main_image"), ("x", .str "40"),
      ("y", .str "200"), ("width", .str "320"), ("height", .str "300")]
      none none [],
    .mk "text" [("id", .str "source")] none none [] ]

/-- Figma-style template family: a `main_image` group whose rect carries
the given fill, plus a pattern element (given attributes and children) and
an image resource element (given attributes) in `defs`. -/
def figmaRoot (patAttrs : List (String × AttrVal)) (patChildren : List Elem)
    (imgAttrs : List (String × AttrVal)) (fill : String) : Elem :=
  .mk "svg" [("width", .str "400"), ("height", .str "800")] none none
  [ .mk "text" [("id", .str "input_text"), ("font-size", .str "22")] none none
      [.mk "tspan" [("x", .str "24"), ("y", .str "120")] (some "old") none []],
    .mk "g" [("id", .str "main_image")] none none
      [.mk "rect" [("x", .str "40"), ("y", .str "200"),
        ("width", .str "300"), ("height", .str "300"),
        ("fill", .str fill)] none none []],
    .mk "text" [("id", .str "source")] none none [],
    .mk "defs" [] none none
      [ .mk "pattern" patAttrs none none patChildren,
        .mk "image" imgAttrs none none [] ] ]

/-- PatternIndirect template: the rect fill references `pattern0`, which
holds a `use` indirection to the `image0` resource. -/
def useFigmaRoot : Elem := figmaRoot
  [("id", .str "pattern0"), ("patternContentUnits", .str "objectBoundingBox")]
  [.mk "use" [("href", .str "#image0")] none none []]
  [("id", .str "image0"), ("width", .str "1200"), ("height", .str "600")]
  "url(#pattern0)"

/-- Pattern with a directly nested image and no `objectBoundingBox`
content units. -/
def nestedNoOBBRoot : Elem := figmaRoot
  [("id", .str "pattern0")]
  [.mk "image" [("transform", .str "scale(0.00083333 0.00166666)")]
    none none []]
  [("id", .str "image0"), ("width", .str "1200"), ("height", .str "600")]
  "url(#pattern0)"

/-- Pattern with a directly nested image and `objectBoundingBox` content
units. -/
def nestedOBBRoot : Elem := figmaRoot
  [("id", .str "pattern0"), ("patternContentUnits", .str "objectBoundingBox")]
  [.mk "image" [("transform", .str "scale(0.00083333 0.00166666)")]
    none none []]
  [("id", .str "image0"), ("width", .str "1200"), ("height", .str "600")]
  "url(#pattern0)"

/-- The rect's fill names a pattern that does not exist in the document. -/
def missingPatternRoot : Elem := figmaRoot
  [("id", .str "otherpat")] [] [("id", .str "image0")] "url(#nope)"

/-- The rect's fill carries no `url(#...)` pattern reference at all. -/
def noUrlFillRoot : Elem := figmaRoot
  [("id", .str "pattern0")] [] [("id", .str "image0")] "white"

/-- The referenced image resource declares a zero width: the decode-failure
fallback then divides by zero. -/
def zeroWidthResRoot : Elem := figmaRoot
  [("id", .str "pattern0"), ("patternContentUnits", .str "objectBoundingBox")]
  [.mk "use" [("href", .str "#image0")] none none []]
  [("id", .str "image0"), ("width", .str "0"), ("height", .str "600")]
  "url(#pattern0)"

/-- The document `_replace_pattern_image` produces from `useFigmaRoot` when
the injected bytes decode to `nw × nh`: payload and intrinsic size written
to the `image0` resource, scale factors `1/nw, 1/nh` on the `use`. -/
def figmaAfterUse (payload : String) (nw nh : ℕ) : Elem :=
  .mk "svg" [("width", .str "400"), ("height", .str "800")] none none
  [ .mk "text" [("id", .str "input_text"), ("font-size", .str "22")] none none
      [.mk "tspan" [("x", .str "24"), ("y", .str "120")] (some "old") none []],
    .mk "g" [("id", .str "main_image")] none none
      [.mk "rect" [("x", .str "40"), ("y", .str "200"), ("width", .str "300"),
        ("height", .str "300"), ("fill", .str "url(#pattern0)")] none none []],
    .mk "text" [("id", .str "source")] none none [],
    .mk "defs" [] none none
      [ .mk "pattern"
          [("id", .str "pattern0"),
           ("patternContentUnits", .str "objectBoundingBox")] none none
          [.mk "use" [("transform", .scale (1 / (nw : ℚ)) (1 / (nh : ℚ))),
            ("href", .str "#image0")] none none []],
        .mk "image" [("preserveAspectRatio", .str "none"),
          ("height", .num (nh : ℚ)), ("width", .num (nw : ℚ)),
          ("href", .str payload), ("id", .str "image0")] none none [] ] ]

/-- The document `_replace_pattern_image` produces from `nestedOBBRoot`:
the image nested directly in the pattern gets the payload, intrinsic size
and the recomputed transform. -/
def figmaAfterNested (payload : String) (nw nh : ℕ) : Elem :=
  .mk "svg" [("width", .str "400"), ("height", .str "800")] none none
  [ .mk "text" [("id", .str "input_text"), ("font-size", .str "22")] none none
      [.mk "tspan" [("x", .str "24"), ("y", .str "120")] (some "old") none []],
    .mk "g" [("id", .str "main_image")] none none
      [.mk "rect" [("x", .str "40"), ("y", .str "200"), ("width", .str "300"),
        ("height", .str "300"), ("fill", .str "url(#pattern0)")] none none []],
    .mk "text" [("id", .str "source")] none none [],
    .mk "defs" [] none none
      [ .mk "pattern"
          [("id", .str "pattern0"),
           ("patternContentUnits", .str "objectBoundingBox")] none none
          [.mk "image" [("transform", .scale (1 / (nw : ℚ)) (1 / (nh : ℚ))),
            ("preserveAspectRatio", .str "none"), ("height", .num (nh : ℚ)),
            ("width", .num (nw : ℚ)), ("href", .str payload)] none none []],
        .mk "image" [("id", .str "image0"), ("width", .str "1200"),
          ("height", .str "600")] none none [] ] ]

-- ── Word-wrap correctness infrastructure ──────────────────────────────

/-- A word as produced by `pySplit`: nonempty and whitespace-free. -/
def goodWord (w : List Char) : Prop := w ≠ [] ∧ ∀ c ∈ w, isPySpace c = false

/-- Join words with single spaces — the shape of the `cur` accumulator. -/
def joinSp : List (List Char) → List Char
  | [] => []
  | [w] => w
  | w :: v :: ws => w ++ ' ' :: joinSp (v :: ws)

/-- A line satisfies the wrap budget, or is a single over-long word kept
whole on its own line. -/
def lineOk (n : ℤ) (l : List Char) : Prop :=
  (l.length : ℤ) ≤ n ∨ (pySplit l = [l] ∧ n < (l.length : ℤ))

lemma pySplitAux_good (s : List Char) : ∀ acc,
    (∀ c ∈ acc, isPySpace c = false) → ∀ w ∈ pySplitAux s acc, goodWord w := by
  induction s with
  | nil =>
    intro acc hacc w hw
    by_cases h : acc = []
    · simp [pySplitAux, h] at hw
    · simp only [pySplitAux, if_neg h, List.mem_singleton] at hw
      subst hw
      refine ⟨by simpa using h, fun c hc => hacc c (List.mem_reverse.mp hc)⟩
  | cons b s ih =>
    intro acc hacc w hw
    by_cases hb : isPySpace b
    · by_cases h : acc = []
      · simp only [pySplitAux, hb, if_true, h, if_pos rfl] at hw
        exact ih [] (by simp) w hw
      · simp only [pySplitAux, hb, if_true, if_neg h, List.mem_cons] at hw
        rcases hw with hw | hw
        · subst hw
          exact ⟨by simpa using h, fun c hc => hacc c (List.mem_reverse.mp hc)⟩
        · exact ih [] (by simp) w hw
    · simp only [pySplitAux, hb, if_false] at hw
      refine ih (b :: acc) ?_ w hw
      intro c hc
      rcases List.mem_cons.mp hc with rfl | hc
      · simpa using hb
      · exact hacc c hc

lemma pySplit_good (s : List Char) : ∀ w ∈ pySplit s, goodWord w :=
  pySplitAux_good s [] (by simp)

lemma pySplitAux_word (w : List Char) (hw : ∀ c ∈ w, isPySpace c = false) :
    ∀ cs acc, pySplitAux (w ++ cs) acc = pySplitAux cs (w.reverse ++ acc) := by
  induction w with
  | nil => intro cs acc; simp
  | cons b w ih =>
    intro cs acc
    have hb : isPySpace b = false := hw b (by simp)
    simp only [List.cons_append, pySplitAux, hb, Bool.false_eq_true, if_false]
    have h2 := ih (fun c hc => hw c (by simp [hc])) cs (b :: acc)
    simpa using h2

lemma pySplit_single (w : List Char) (hw : goodWord w) : pySplit w = [w] := by
  have h := pySplitAux_word w hw.2 [] []
  simp only [List.append_nil] at h
  unfold pySplit
  rw [h]
  simp [pySplitAux, hw.1]

lemma pySplitAux_space (cs acc : List Char) (h : acc ≠ []) :
    pySplitAux (' ' :: cs) acc = acc.reverse :: pySplitAux cs [] := by
  simp [pySplitAux, isPySpace, h]

lemma joinSp_cons (u : List Char) (g : List (List Char)) :
    joinSp (u :: g) = u ++ (if g = [] then [] else ' ' :: joinSp g) := by
  cases g <;> simp [joinSp]

lemma joinSp_append_single (g : List (List Char)) (w : List Char)
    (hg : g ≠ []) : joinSp (g ++ [w]) = joinSp g ++ ' ' :: w := by
  induction g with
  | nil => exact absurd rfl hg
  | cons u g ih =>
    cases g with
    | nil => simp [joinSp]
    | cons v g2 =>
      have h2 : joinSp (v :: (g2 ++ [w])) = joinSp (v :: g2) ++ ' ' :: w := by
        simpa using ih (by simp)
      calc joinSp (u :: v :: g2 ++ [w])
          = u ++ ' ' :: joinSp (v :: (g2 ++ [w])) := rfl
        _ = u ++ ' ' :: (joinSp (v :: g2) ++ ' ' :: w) := by rw [h2]
        _ = (u ++ ' ' :: joinSp (v :: g2)) ++ ' ' :: w := by simp
        _ = joinSp (u :: v :: g2) ++ ' ' :: w := rfl

lemma joinSp_ne_nil (g : List (List Char)) (hg : ∀ u ∈ g, goodWord u)
    (hne : g ≠ []) : joinSp g ≠ [] := by
  cases g with
  | nil => exact absurd rfl hne
  | cons u g =>
    rw [joinSp_cons]
    have hu : u ≠ [] := (hg u (by simp)).1
    simp [hu]

lemma dropWhile_eq_self_of_all (l : List Char)
    (h : ∀ c ∈ l, isPySpace c = false) : l.dropWhile isPySpace = l := by
  cases l with
  | nil => rfl
  | cons c cs => rw [List.dropWhile_cons, h c (by simp)]; simp

lemma pyStrip_eq_self (l : List Char)
    (h1 : ∀ c ∈ l.head?, isPySpace c = false)
    (h2 : ∀ c ∈ l.getLast?, isPySpace c = false) : pyStrip l = l := by
  unfold pyStrip
  have hd : l.dropWhile isPySpace = l := by
    cases l with
    | nil => rfl
    | cons c cs =>
      rw [List.dropWhile_cons, h1 c (by simp)]
      simp
  rw [hd]
  have hr : l.reverse.dropWhile isPySpace = l.reverse := by
    cases hrev : l.reverse with
    | nil => rfl
    | cons c cs =>
      have hc : c ∈ l.getLast? := by
        rw [← List.head?_reverse, hrev]; rfl
      rw [List.dropWhile_cons, h2 c hc]
      simp
  rw [hr, List.reverse_reverse]

lemma pyStrip_space_word (w : List Char) (hw : goodWord w) :
    pyStrip (' ' :: w) = w := by
  unfold pyStrip
  have h1 : (' ' :: w).dropWhile isPySpace = w.dropWhile isPySpace := by
    rw [List.dropWhile_cons]
    simp [isPySpace]
  rw [h1, dropWhile_eq_self_of_all w hw.2,
    dropWhile_eq_self_of_all _ (fun c hc => hw.2 c (List.mem_reverse.mp hc)),
    List.reverse_reverse]

lemma head?_joinSp (g : List (List Char)) (hg : ∀ u ∈ g, goodWord u) :
    ∀ c ∈ (joinSp g).head?, isPySpace c = false := by
  cases g with
  | nil => simp [joinSp]
  | cons u g =>
    intro c hc
    rw [joinSp_cons] at hc
    have hu := hg u (by simp)
    rw [List.head?_append_of_ne_nil _ hu.1] at hc
    exact hu.2 c (List.mem_of_mem_head? hc)

lemma getLast?_joinSp (g : List (List Char)) (hg : ∀ u ∈ g, goodWord u) :
    ∀ c ∈ (joinSp g).getLast?, isPySpace c = false := by
  induction g with
  | nil => simp [joinSp]
  | cons u g ih =>
    intro c hc
    cases g with
    | nil =>
      have hu := hg u (by simp)
      simp only [joinSp] at hc
      refine hu.2 c ?_
      have := List.head?_reverse u
      rw [← this] at hc
      exact List.mem_reverse.mp (List.mem_of_mem_head? hc)
    | cons v g2 =>
      simp only [joinSp] at hc
      rw [List.getLast?_append_of_ne_nil _ (by simp)] at hc
      have hj : joinSp (v :: g2) ≠ [] :=
        joinSp_ne_nil _ (fun x hx => hg x (by simp [hx])) (by simp)
      have : (' ' :: joinSp (v :: g2)).getLast? = (joinSp (v :: g2)).getLast? := by
        have := List.getLast?_append_of_ne_nil [' '] hj
        simpa using this
      rw [this] at hc
      exact ih (fun x hx => hg x (by simp [hx])) c hc

lemma pyStrip_joinSp (g : List (List Char)) (hg : ∀ u ∈ g, goodWord u) :
    pyStrip (joinSp g) = joinSp g :=
  pyStrip_eq_self _ (head?_joinSp g hg) (getLast?_joinSp g hg)

lemma pySplit_joinSp (g : List (List Char)) (hg : ∀ u ∈ g, goodWord u) :
    pySplit (joinSp g) = g := by
  induction g with
  | nil => simp [joinSp, pySplit, pySplitAux]
  | cons u g ih =>
    cases g with
    | nil => exact pySplit_single u (hg u (by simp))
    | cons v g2 =>
      have hu := hg u (by simp)
      simp only [joinSp]
      unfold pySplit
      rw [pySplitAux_word u hu.2, List.append_nil,
        pySplitAux_space _ _ (by simpa using hu.1), List.reverse_reverse]
      have := ih (fun x hx => hg x (by simp [hx]))
      unfold pySplit at this
      rw [this]

/-- The `test` string the loop builds is exactly the word group `g ++ [w]`
joined by single spaces. -/
lemma pyStrip_test (g : List (List Char)) (w : List Char)
    (hg : ∀ u ∈ g, goodWord u) (hw : goodWord w) :
    pyStrip (joinSp g ++ ' ' :: w) = joinSp (g ++ [w]) := by
  cases hgn : g with
  | nil => simpa [joinSp] using pyStrip_space_word w hw
  | cons u g2 =>
    rw [← hgn, ← joinSp_append_single g w (by simp [hgn])]
    refine pyStrip_joinSp _ ?_
    intro x hx
    rcases List.mem_append.mp hx with hx | hx
    · exact hg x hx
    · simpa [List.mem_singleton.mp hx] using hw

lemma lineOk_joinSp (n : ℤ) (g : List (List Char))
    (hg : ∀ u ∈ g, goodWord u)
    (hinv : ((joinSp g).length : ℤ) ≤ n ∨ ∃ u, g = [u]) :
    lineOk n (joinSp g) := by
  by_cases hlen : ((joinSp g).length : ℤ) ≤ n
  · exact Or.inl hlen
  · rcases hinv with h | ⟨u, rfl⟩
    · exact absurd h hlen
    · refine Or.inr ⟨?_, ?_⟩
      · simpa [joinSp] using pySplit_single u (hg u (by simp))
      · push_neg at hlen
        exact hlen

/-- Invariant of the `_wrap_text` loop: lines already emitted satisfy the
budget property, the accumulator is a space-join of a word group, and the
emitted words are exactly the consumed words in order. -/
lemma wrapLoop_spec (n : ℤ) (ws : List (List Char)) :
    ∀ lines g : List (List Char),
    (∀ w ∈ ws, goodWord w) → (∀ u ∈ g, goodWord u) →
    (((joinSp g).length : ℤ) ≤ n ∨ ∃ u, g = [u]) →
    (∀ l ∈ lines, lineOk n l) →
    (∀ l ∈ wrapLoop n ws lines (joinSp g), lineOk n l) ∧
      ((wrapLoop n ws lines (joinSp g)).map pySplit).flatten =
        (lines.map pySplit).flatten ++ g ++ ws := by
  induction ws with
  | nil =>
    intro lines g hws hg hinv hlines
    by_cases hgn : g = []
    · subst hgn
      refine ⟨?_, by simp [wrapLoop, joinSp]⟩
      intro l hl
      simp only [wrapLoop, joinSp, if_pos rfl] at hl
      exact hlines l hl
    · have hjoin : joinSp g ≠ [] := joinSp_ne_nil g hg hgn
      simp only [wrapLoop, if_neg hjoin]
      constructor
      · intro l hl
        rcases List.mem_append.mp hl with hl | hl
        · exact hlines l hl
        · rw [List.mem_singleton.mp hl]
          exact lineOk_joinSp n g hg hinv
      · simp [pySplit_joinSp g hg]
  | cons w ws ih =>
    intro lines g hws hg hinv hlines
    have hw : goodWord w := hws w (by simp)
    have hws2 : ∀ v ∈ ws, goodWord v := fun v hv => hws v (by simp [hv])
    have htest : pyStrip (joinSp g ++ ' ' :: w) = joinSp (g ++ [w]) :=
      pyStrip_test g w hg hw
    have hgw : ∀ u ∈ g ++ [w], goodWord u := by
      intro u hu
      rcases List.mem_append.mp hu with h | h
      · exact hg u h
      · simpa [List.mem_singleton.mp h] using hw
    simp only [wrapLoop, htest]
    by_cases hle : ((joinSp (g ++ [w])).length : ℤ) ≤ n
    · rw [if_pos hle]
      have h := ih lines (g ++ [w]) hws2 hgw (Or.inl hle) hlines
      refine ⟨h.1, ?_⟩
      rw [h.2]
      simp
    · rw [if_neg hle]
      by_cases hgn : g = []
      · subst hgn
        simp only [joinSp, eq_self_iff_true, if_true]
        have h := ih lines [w] hws2 (by simpa using hw) (Or.inr ⟨w, rfl⟩) hlines
        simp only [joinSp] at h
        refine ⟨h.1, ?_⟩
        rw [h.2]
        simp
      · have hjoin : joinSp g ≠ [] := joinSp_ne_nil g hg hgn
        rw [if_neg hjoin]
        have hlines2 : ∀ l ∈ lines ++ [joinSp g], lineOk n l := by
          intro l hl
          rcases List.mem_append.mp hl with hl | hl
          · exact hlines l hl
          · rw [List.mem_singleton.mp hl]
            exact lineOk_joinSp n g hg hinv
        have h := ih (lines ++ [joinSp g]) [w] hws2 (by simpa using hw)
          (Or.inr ⟨w, rfl⟩) hlines2
        simp only [joinSp] at h
        refine ⟨h.1, ?_⟩
        rw [h.2]
        simp [pySplit_joinSp g hg]

-- ── Claim theorems ────────────────────────────────────────────────────

/-- C2: for every non-empty body string and every positive
characters-per-line budget, `_wrap_text` produces at least one line, every
line satisfies the budget except a single over-long word kept whole on its
own line (`lineOk`), and the words of all lines concatenated in order are
exactly the words of the input. -/
theorem wrapText_wraps_correctly (s : List Char) (n : ℤ)
    (hs : s ≠ []) (hn : 0 < n) :
    1 ≤ (wrapText s n).length ∧ (∀ l ∈ wrapText s n, lineOk n l) ∧
      ((wrapText s n).map pySplit).flatten = pySplit s := by
  have h := wrapLoop_spec n (pySplit s) [] [] (pySplit_good s) (by simp)
    (Or.inl (by simp [joinSp]; omega)) (by simp)
  simp only [joinSp] at h
  by_cases hr : wrapLoop n (pySplit s) [] [] = []
  · have hflat : pySplit s = [] := by
      have h2 := h.2
      rw [hr] at h2
      simpa using h2.symm
    unfold wrapText
    rw [hr, if_pos rfl]
    refine ⟨by simp, ?_, ?_⟩
    · intro l hl
      rw [List.mem_singleton.mp hl]
      exact Or.inl (by simpa using hn.le)
    · rw [hflat]
      rfl
  · unfold wrapText
    rw [if_neg hr]
    refine ⟨List.length_pos.mpr hr, h.1, ?_⟩
    have h2 := h.2
    simpa using h2

/-- C2 witness: concrete instantiation at body `"ab cd ef"` and budget 5. -/
theorem wrapText_wraps_correctly_witness :
    ("ab cd ef".data ≠ []) ∧ ((0 : ℤ) < 5) ∧
      1 ≤ (wrapText "ab cd ef".data 5).length ∧
      ((wrapText "ab cd ef".data 5).map pySplit).flatten =
        pySplit "ab cd ef".data :=
  ⟨by decide, by decide,
    (wrapText_wraps_correctly "ab cd ef".data 5 (by decide) (by decide)).1,
    (wrapText_wraps_correctly "ab cd ef".data 5 (by decide) (by decide)).2.2⟩

/-- C9: for every body string and budget `_wrap_text` returns at least one
line, and the empty body produces exactly one empty line. -/
theorem wrapText_at_least_one_line (s : List Char) (n : ℤ) :
    1 ≤ (wrapText s n).length ∧ wrapText [] n = [[]] := by
  constructor
  · unfold wrapText
    by_cases h : wrapLoop n (pySplit s) [] [] = []
    · rw [h, if_pos rfl]
      simp
    · rw [if_neg h]
      exact List.length_pos.mpr h
  · simp [wrapText, wrapLoop, pySplit, pySplitAux]

lemma pyTruncInt_eq_floor (q : ℚ) (hq : 0 ≤ q) : pyTruncInt q = ⌊q⌋ := by
  unfold pyTruncInt
  rw [Rat.floor_def]
  exact Int.tdiv_eq_ediv (Rat.num_nonneg.mpr hq) (Int.natCast_nonneg _)

lemma pyTruncInt_mul_div_bounds (A B C : ℕ) (hC : 0 < C) :
    0 ≤ pyTruncInt ((A : ℚ) * B / C) ∧
    pyTruncInt ((A : ℚ) * B / C) * C ≤ (A : ℤ) * B ∧
    (A : ℤ) * B < (pyTruncInt ((A : ℚ) * B / C) + 1) * C := by
  have hCq : (0 : ℚ) < (C : ℚ) := by exact_mod_cast hC
  have hq0 : (0 : ℚ) ≤ (A : ℚ) * B / C := by positivity
  rw [pyTruncInt_eq_floor _ hq0]
  have hqC : ((A : ℚ) * B / C) * C = (A : ℚ) * B :=
    div_mul_cancel₀ _ hCq.ne'
  refine ⟨Int.floor_nonneg.mpr hq0, ?_, ?_⟩
  · have h1 : ((⌊(A : ℚ) * B / C⌋ : ℚ)) * C ≤ ((A : ℚ) * B / C) * C :=
      mul_le_mul_of_nonneg_right (Int.floor_le _) hCq.le
    rw [hqC] at h1
    exact_mod_cast h1
  · have h2 : ((A : ℚ) * B / C) * C < ((⌊(A : ℚ) * B / C⌋ : ℚ) + 1) * C :=
      mul_lt_mul_of_pos_right (Int.lt_floor_add_one _) hCq
    rw [hqC] at h2
    exact_mod_cast h2

/-- C7: for every positive card size, the composer's output canvas is
exactly 1080×1920, the resized card fits inside the canvas minus the 50px
margin, it is centered, and its aspect ratio is preserved up to the integer
truncation of one resize dimension. -/
theorem composeOnCanvas_contract (cw ch : ℕ) (hcw : 0 < cw) (hch : 0 < ch)
    (r : ComposeResult) (hr : composeOnCanvas cw ch = some r) :
    r.outW = 1080 ∧ r.outH = 1920 ∧ r.newW ≤ 980 ∧ r.newH ≤ 1820 ∧
      r.x = (1080 - r.newW) / 2 ∧ r.y = (1920 - r.newH) / 2 ∧
      50 ≤ r.x ∧ r.x + r.newW ≤ 1030 ∧ 50 ≤ r.y ∧ r.y + r.newH ≤ 1870 ∧
      ((r.newW : ℤ) * ch - (r.newH : ℤ) * cw).natAbs < max cw ch := by
  have hchq : (0 : ℚ) < (ch : ℚ) := by exact_mod_cast hch
  have hcwq : (0 : ℚ) < (cw : ℚ) := by exact_mod_cast hcw
  simp only [composeOnCanvas, if_neg hch.ne', VIDEO_WIDTH, VIDEO_HEIGHT,
    CARD_MARGIN, Option.some.injEq] at hr
  norm_num at hr
  subst hr
  by_cases hb : (7 : ℚ) / 13 < (cw : ℚ) / ch
  · -- fit by width: newW = 980, newH = int(980 / card_ratio)
    have hq : (980 : ℚ) / ((cw : ℚ) / ch) = (980 : ℚ) * ch / cw :=
      div_div_eq_mul_div _ _ _
    rw [if_pos hb, hq]
    have hbounds := pyTruncInt_mul_div_bounds 980 ch cw hcw
    push_cast at hbounds
    set m : ℤ := pyTruncInt ((980 : ℚ) * ch / cw) with hm
    obtain ⟨hm0, hlow, hhigh⟩ := hbounds
    rw [add_mul, one_mul] at hhigh
    have hcross : (980 : ℤ) * ch < 1820 * cw := by
      have h1 := (div_lt_div_iff₀ (by norm_num) hchq).mp hb
      have h2 : (7 : ℤ) * ch < cw * 13 := by exact_mod_cast h1
      linarith
    have hmlt : m < 1820 := by
      have h1 : m * cw < 1820 * cw := lt_of_le_of_lt hlow hcross
      exact lt_of_mul_lt_mul_right h1 (Int.natCast_nonneg cw)
    have hmn : (m.toNat : ℤ) = m := Int.toNat_of_nonneg hm0
    have hnewH : m.toNat ≤ 1820 := by omega
    refine ⟨rfl, rfl, by norm_num, hnewH, rfl, rfl, by norm_num, by norm_num,
      ?_, ?_, ?_⟩
    · show 50 ≤ (1920 - m.toNat) / 2
      omega
    · show (1920 - m.toNat) / 2 + m.toNat ≤ 1870
      omega
    · show (((980 : ℕ) : ℤ) * ch - (m.toNat : ℤ) * cw).natAbs < max cw ch
      have hd0 : (0 : ℤ) ≤ 980 * ch - m * cw := by linarith
      have hd1 : (980 : ℤ) * ch - m * cw < cw := by linarith
      have habs : ((980 : ℤ) * ch - m * cw).natAbs < cw := by
        zify
        rw [abs_of_nonneg hd0]
        exact_mod_cast hd1
      have : (((980 : ℕ) : ℤ) * ch - (m.toNat : ℤ) * cw).natAbs < cw := by
        rw [hmn]
        exact_mod_cast habs
      exact lt_of_lt_of_le this (le_max_left _ _)
  · -- fit by height: newH = 1820, newW = int(1820 * card_ratio)
    have hq : (1820 : ℚ) * ((cw : ℚ) / ch) = (1820 : ℚ) * cw / ch :=
      (mul_div_assoc _ _ _).symm
    rw [if_neg hb, hq]
    have hbounds := pyTruncInt_mul_div_bounds 1820 cw ch hch
    push_cast at hbounds
    set m : ℤ := pyTruncInt ((1820 : ℚ) * cw / ch) with hm
    obtain ⟨hm0, hlow, hhigh⟩ := hbounds
    rw [add_mul, one_mul] at hhigh
    have hcross : (1820 : ℤ) * cw ≤ 980 * ch := by
      have h1 : (cw : ℚ) / ch ≤ (7 : ℚ) / 13 := le_of_not_lt hb
      have h2 := (div_le_div_iff₀ hchq (by norm_num)).mp h1
      have h3 : (cw : ℤ) * 13 ≤ 7 * ch := by exact_mod_cast h2
      linarith
    have hmle : m ≤ 980 := by
      have h1 : m * ch ≤ 980 * ch := le_trans hlow hcross
      have h2 : (0 : ℤ) < ch := by exact_mod_cast hch
      exact le_of_mul_le_mul_right h1 h2
    have hmn : (m.toNat : ℤ) = m := Int.toNat_of_nonneg hm0
    have hnewW : m.toNat ≤ 980 := by omega
    refine ⟨rfl, rfl, hnewW, by norm_num, rfl, rfl, ?_, ?_, by norm_num,
      by norm_num, ?_⟩
    · show 50 ≤ (1080 - m.toNat) / 2
      omega
    · show (1080 - m.toNat) / 2 + m.toNat ≤ 1030
      omega
    · show ((m.toNat : ℤ) * ch - ((1820 : ℕ) : ℤ) * cw).natAbs < max cw ch
      have hd0 : (0 : ℤ) ≤ 1820 * cw - m * ch := by linarith
      have hd1 : (1820 : ℤ) * cw - m * ch < ch := by linarith
      have habs : ((1820 : ℤ) * cw - m * ch).natAbs < ch := by
        zify
        rw [abs_of_nonneg hd0]
        exact_mod_cast hd1
      have h4 : ((m.toNat : ℤ) * ch - ((1820 : ℕ) : ℤ) * cw).natAbs < ch := by
        rw [hmn]
        have hneg : (m * (ch : ℤ) - ((1820 : ℕ) : ℤ) * cw) =
            -(((1820 : ℕ) : ℤ) * cw - m * ch) := by push_cast; ring
        rw [hneg, Int.natAbs_neg]
        exact_mod_cast habs
      exact lt_of_lt_of_le h4 (le_max_right _ _)

set_option maxRecDepth 100000 in
/-- C7 witness: a 400×800 card is scaled to 910×1820 and centered at
(85, 50) on the 1080×1920 canvas. -/
theorem composeOnCanvas_contract_witness :
    (0 < 400 ∧ 0 < 800) ∧ composeOnCanvas 400 800 =
      some ⟨1080, 1920, 910, 1820, 85, 50⟩ ∧
      (1080 = 1080 ∧ 1920 = 1920 ∧ 910 ≤ 980 ∧ 1820 ≤ 1820) := by
  have hc : composeOnCanvas 400 800 = some ⟨1080, 1920, 910, 1820, 85, 50⟩ := by
    with_unfolding_all decide
  have h := composeOnCanvas_contract 400 800 (by norm_num) (by norm_num) _ hc
  exact ⟨⟨by norm_num, by norm_num⟩, hc, by norm_num⟩

lemma lookup_filter_ne (m n : String) (l : List (String × AttrVal))
    (h : m ≠ n) : (l.filter (fun p => p.1 != n)).lookup m = l.lookup m := by
  induction l with
  | nil => rfl
  | cons p l ih =>
    rw [List.filter_cons]
    by_cases hp : p.1 = n
    · rw [if_neg (by simp [hp]), ih]
      have hm : (m == p.1) = false := by simp [hp, h]
      simp [List.lookup, hm]
    · rw [if_pos (by simp [hp])]
      simp only [List.lookup, ih]

lemma getAttr_setAttr_same (e : Elem) (n : String) (v : AttrVal) :
    (e.setAttr n v).getAttr n = some v := by
  simp [Elem.setAttr, Elem.getAttr, List.lookup]

lemma getAttr_setAttr_ne (e : Elem) (n m : String) (v : AttrVal)
    (h : m ≠ n) : (e.setAttr n v).getAttr m = e.getAttr m := by
  have hm : (m == n) = false := by simp [h]
  simp only [Elem.setAttr, Elem.getAttr, Elem.attrs, Elem.tag, Elem.text,
    Elem.tail, Elem.children, List.lookup, hm]
  exact lookup_filter_ne m n _ h

set_option maxRecDepth 100000 in
/-- C8 counterexample: explicit negative width/height attributes pass
straight through `_svg_dims` (only the falsy value 0 triggers the
fallbacks), so the extracted dimensions are not always positive. -/
theorem svgDims_negative_passthrough :
    svgDims negDimsRoot = some (-100, -50) ∧
      (-100 : ℚ) < 0 ∧ (-50 : ℚ) < 0 := by
  refine ⟨?_, by norm_num, by norm_num⟩
  with_unfolding_all decide

/-- C8 (amended): the extracted dimensions are never zero — explicit
attributes are used when they parse to a nonzero value (negative values
included), zero/absent/unparseable values fall back to the viewBox and then
to the 500×800 defaults — but positivity is not guaranteed. -/
theorem svgDims_nonzero (root : Elem) (w h : ℚ)
    (hdims : svgDims root = some (w, h)) : w ≠ 0 ∧ h ≠ 0 := by
  unfold svgDims at hdims
  obtain ⟨wh, -, h2⟩ := Option.map_eq_some'.mp hdims
  simp only [Prod.mk.injEq] at h2
  obtain ⟨hw, hh⟩ := h2
  constructor
  · by_cases h0 : wh.1 = 0
    · rw [← hw, if_pos h0]
      norm_num
    · rw [← hw, if_neg h0]
      exact h0
  · by_cases h0 : wh.2 = 0
    · rw [← hh, if_pos h0]
      norm_num
    · rw [← hh, if_neg h0]
      exact h0

/-- C8 witness: a root with no width, height or viewBox resolves to the
500×800 documented defaults, which are nonzero. -/
theorem svgDims_nonzero_witness :
    svgDims (Elem.mk "svg" [] none none []) = some (500, 800) ∧
      (500 : ℚ) ≠ 0 ∧ (800 : ℚ) ≠ 0 := by
  have hd : svgDims (Elem.mk "svg" [] none none []) = some (500, 800) := by
    with_unfolding_all decide
  have h := svgDims_nonzero _ _ _ hd
  exact ⟨hd, h.1, h.2⟩

/-- C1: whenever the card build computes a final geometry, the final
document height is at least the original height `_svg_dims` extracted at
parse time — for every template, body string (empty included), optional
image bytes and source string. -/
theorem buildFinalHeight_ge_original (root : Elem) (body : List Char)
    (img : Option ImageBytes) (src : String) (w0 h0 fh : ℚ)
    (hdims : svgDims root = some (w0, h0))
    (hbuild : buildFinalHeight root body img src = some fh) : h0 ≤ fh := by
  unfold buildFinalHeight at hbuild
  obtain ⟨r, hgeom, hfh⟩ := Option.map_eq_some'.mp hbuild
  unfold buildCardGeom at hgeom
  simp only [hdims] at hgeom
  rcases h1 : injectText root body w0 with _ | ⟨root1, ti⟩
  · simp only [h1] at hgeom
    exact absurd hgeom (by simp)
  · simp only [h1] at hgeom
    rcases h2 : injectImage root1 img
        (ti.startY + ti.textHeight + TEXT_TO_IMAGE_GAP) w0 with _ | ⟨root2, ii⟩
    · simp only [h2] at hgeom
      exact absurd hgeom (by simp)
    · simp only [h2, Option.some.injEq] at hgeom
      rw [← hgeom] at hfh
      simp only at hfh
      rw [← hfh]
      exact le_max_right _ _

set_option maxRecDepth 100000 in
/-- C1 witness: the demo template with empty body and no image builds to
final height 800, its original height. -/
theorem buildFinalHeight_ge_original_witness :
    svgDims demoRoot = some (400, 800) ∧
      buildFinalHeight demoRoot [] none "" = some 800 ∧ (800 : ℚ) ≤ 800 := by
  have hd : svgDims demoRoot = some (400, 800) := by
    with_unfolding_all decide
  have hb : buildFinalHeight demoRoot [] none "" = some 800 := by
    with_unfolding_all decide
  exact ⟨hd, hb, buildFinalHeight_ge_original demoRoot [] none "" 400 800 800 hd hb⟩

/-- C3: injecting image bytes that decode to `nw × nh` into a Direct
(`image`) slot keeps the declared width `w` (both in the returned geometry
and in the element's width attribute) and recomputes the slot height as
`w / (nw / nh) = w × nh / nw`, exactly in ℚ. -/
theorem injectImageSimple_direct_height (el : Elem) (payload : String)
    (nw nh : ℕ) (newY svgW : ℚ) (hnw : 0 < nw) (hnh : 0 < nh) :
    (injectImageSimple el (some ⟨payload, some (nw, nh)⟩) newY svgW).2.imgHeight
        = getFloat el "width" (svgW * (9 / 10)) * nh / nw ∧
      (injectImageSimple el (some ⟨payload, some (nw, nh)⟩) newY svgW).2.imgWidth
        = getFloat el "width" (svgW * (9 / 10)) ∧
      ((injectImageSimple el (some ⟨payload, some (nw, nh)⟩) newY svgW).1).getAttr
        "width" = some (.num (getFloat el "width" (svgW * (9 / 10)))) := by
  have hcase : (nw = 0 ∨ nh = 0) = False := by
    simp [hnw.ne', hnh.ne']
  refine ⟨?_, ?_, ?_⟩
  · simp [injectImageSimple, proportionalHeight, hcase]
  · simp [injectImageSimple, proportionalHeight, hcase]
  · simp only [injectImageSimple, proportionalHeight, hcase]
    rw [getAttr_setAttr_ne _ _ _ _ (by decide),
      getAttr_setAttr_ne _ _ _ _ (by decide),
      getAttr_setAttr_ne _ _ _ _ (by decide),
      getAttr_setAttr_same]

/-- C3 witness: a 300-wide Direct slot receiving a 1200×600 image gets
height 150 (Scenario C) with the width kept at 300. -/
theorem injectImageSimple_direct_height_witness :
    (0 < 1200 ∧ 0 < 600) ∧
      (injectImageSimple
        (Elem.mk "image" [("id", .str "main_image"), ("width", .str "300")]
          none none [])
        (some ⟨"data:image/png;base64,x", some (1200, 600)⟩) 170 400).2.imgHeight
        = 150 ∧
      (injectImageSimple
        (Elem.mk "image" [("id", .str "main_image"), ("width", .str "300")]
          none none [])
        (some ⟨"data:image/png;base64,x", some (1200, 600)⟩) 170 400).2.imgWidth
        = 300 := by
  have h := injectImageSimple_direct_height
    (Elem.mk "image" [("id", .str "main_image"), ("width", .str "300")]
      none none [])
    "data:image/png;base64,x" 1200 600 170 400 (by norm_num) (by norm_num)
  have hw : getFloat
      (Elem.mk "image" [("id", .str "main_image"), ("width", .str "300")]
        none none []) "width" ((400 : ℚ) * (9 / 10)) = 300 := by
    with_unfolding_all decide
  refine ⟨⟨by norm_num, by norm_num⟩, ?_, ?_⟩
  · rw [h.1, hw]
    norm_num
  · rw [h.2.1, hw]

/-- C10 counterexample: at font size 0 the text injector raises a
`ZeroDivisionError` before any characters-per-line budget exists, so the
budget is not `≥ 15` for *every* font size. -/
theorem charsPerLine_zero_font_crashes : charsPerLine 400 24 0 = none := by
  with_unfolding_all decide

/-- C10 (amended): for every canvas width, origin x and *nonzero* font
size, the characters-per-line budget is computed and is at least 15 — in
particular it stays positive when `2 × origin_x` meets or exceeds the
canvas width. -/
theorem charsPerLine_at_least_15 (w x f : ℚ) (hf : f ≠ 0) :
    (charsPerLine w x f).isSome ∧ 15 ≤ (charsPerLine w x f).getD 0 := by
  have h : f * (11 / 20) ≠ 0 := by
    intro h0
    rcases mul_eq_zero.mp h0 with h0 | h0
    · exact hf h0
    · norm_num at h0
  simp [charsPerLine, h, le_max_left]

/-- C10 witness: canvas width 400 with origin x 300 (padding 600 exceeds
the width) and font size 22 still yields a budget of at least 15. -/
theorem charsPerLine_at_least_15_witness :
    ((22 : ℚ) ≠ 0) ∧ (charsPerLine 400 300 22).isSome ∧
      15 ≤ (charsPerLine 400 300 22).getD 0 :=
  ⟨by norm_num, (charsPerLine_at_least_15 400 300 22 (by norm_num)).1,
    (charsPerLine_at_least_15 400 300 22 (by norm_num)).2⟩

/-- C4 counterexample: a PatternIndirect slot whose pattern nests the image
directly but declares no `objectBoundingBox` content units — injecting
1200×600 bytes writes the payload into the nested image but leaves its
transform attribute untouched, so it is not "updated instead"
unconditionally. -/
theorem patternIndirect_nested_transform_not_updated :
    (replacePatternImage nestedNoOBBRoot "pattern0"
        ⟨"data:demo", some (1200, 600)⟩ 300 150).map (fun r =>
      (findById "pattern0" r).map fun p =>
        p.children.map fun c => (c.getAttr "transform", c.getAttr "href"))
      = some (some [(some (.str "scale(0.00083333 0.00166666)"),
          some (.str "data:demo"))]) := by
  with_unfolding_all decide

/-- C4 (amended): injecting bytes that decode to `nw × nh` into the
PatternIndirect slot recomputes the pattern's scale factors as exactly
`1/nw, 1/nh` and sets the resource image's intrinsic size to `nw × nh`
(use-indirection variant); when the pattern instead nests the image
directly, that image's own transform is updated to the same factors — but
only when the pattern declares `objectBoundingBox` content units. -/
theorem patternIndirect_scale_factors (payload : String) (nw nh : ℕ)
    (hnw : 0 < nw) (hnh : 0 < nh) :
    (replacePatternImage useFigmaRoot "pattern0" ⟨payload, some (nw, nh)⟩
        300 150).map (fun r =>
      ((findById "image0" r).map fun e =>
        (e.getAttr "width", e.getAttr "height"),
       (findById "pattern0" r).map fun p =>
        p.children.map fun c => c.getAttr "transform"))
      = some (some (some (.num (nw : ℚ)), some (.num (nh : ℚ))),
          some [some (.scale (1 / (nw : ℚ)) (1 / (nh : ℚ)))]) ∧
    (replacePatternImage nestedOBBRoot "pattern0" ⟨payload, some (nw, nh)⟩
        300 150).map (fun r =>
      (findById "pattern0" r).map fun p =>
        p.children.map fun c => c.getAttr "transform")
      = some (some [some (.scale (1 / (nw : ℚ)) (1 / (nh : ℚ)))]) := by
  have hcast : ¬((nw : ℚ) = 0 ∨ (nh : ℚ) = 0) := by
    push_neg
    exact ⟨Nat.cast_ne_zero.mpr hnw.ne', Nat.cast_ne_zero.mpr hnh.ne'⟩
  have htgt : hrefTarget "#image0" = some "image0" := by
    with_unfolding_all decide
  constructor
  · have key : replacePatternImage useFigmaRoot "pattern0"
        ⟨payload, some (nw, nh)⟩ 300 150
        = some (figmaAfterUse payload nw nh) := by
      simp +decide [replacePatternImage, useFigmaRoot, figmaRoot, findById,
        findByIdList, Elem.idAttr, Elem.getAttr, Elem.attrs, Elem.tag,
        Elem.children, Elem.text, Elem.tail, List.lookup, List.find?,
        updateById, updateByIdList, updateFirstChild, Elem.setAttr,
        Elem.setChildren, Elem.setText, Elem.setTail, List.filter, hcast]
      rw [htgt]
      simp +decide [hcast, hnw.ne', hnh.ne', findById, findByIdList,
        Elem.idAttr, Elem.getAttr, Elem.attrs, Elem.tag, Elem.children,
        List.lookup, List.filter, updateById, updateByIdList,
        updateFirstChild, Elem.setAttr, Elem.setChildren, figmaAfterUse]
    rw [key]
    simp +decide [figmaAfterUse, findById, findByIdList, Elem.idAttr,
      Elem.getAttr, Elem.attrs, Elem.tag, Elem.children, List.lookup]
  · have key : replacePatternImage nestedOBBRoot "pattern0"
        ⟨payload, some (nw, nh)⟩ 300 150
        = some (figmaAfterNested payload nw nh) := by
      simp +decide [replacePatternImage, updatePatternScale, nestedOBBRoot,
        figmaRoot, findById, findByIdList, Elem.idAttr, Elem.getAttr,
        Elem.attrs, Elem.tag, Elem.children, Elem.text, Elem.tail,
        List.lookup, List.find?, updateById, updateByIdList,
        updateFirstChild, Elem.setAttr, Elem.setChildren, Elem.setText,
        Elem.setTail, List.filter, hcast, hnw.ne', hnh.ne', figmaAfterNested]
    rw [key]
    simp +decide [figmaAfterNested, findById, findByIdList, Elem.idAttr,
      Elem.getAttr, Elem.attrs, Elem.tag, Elem.children, List.lookup]

/-- C4 witness: concrete 1200×600 bytes (Scenario C) give scale factors
`1/1200` and `1/600`. -/
theorem patternIndirect_scale_factors_witness :
    (0 < 1200 ∧ 0 < 600) ∧
      (replacePatternImage useFigmaRoot "pattern0"
          ⟨"data:x", some (1200, 600)⟩ 300 150).map (fun r =>
        ((findById "image0" r).map fun e =>
          (e.getAttr "width", e.getAttr "height"),
         (findById "pattern0" r).map fun p =>
          p.children.map fun c => c.getAttr "transform"))
        = some (some (some (.num (1200 : ℚ)), some (.num (600 : ℚ))),
            some [some (.scale (1 / (1200 : ℚ)) (1 / (600 : ℚ)))]) :=
  ⟨⟨by norm_num, by norm_num⟩,
    by
      have h := (patternIndirect_scale_factors "data:x" 1200 600
        (by norm_num) (by norm_num)).1
      simpa using h⟩

/-- C5 counterexample: the rect's fill names pattern `nope`, which does not
exist in the document, and 1200×600 image bytes are supplied; the injection
succeeds but the container still holds only its rect — it is *not*
converted into a Direct image element. -/
theorem missing_pattern_no_direct_conversion :
    ((findById "main_image" missingPatternRoot).map fun g =>
        g.children.map fillPatternId) = some [some "nope"] ∧
      (findById "nope" missingPatternRoot).isNone = true ∧
      ((injectImage missingPatternRoot
          (some ⟨"data:demo", some (1200, 600)⟩) 170 400).map fun r =>
        (findById "main_image" r.1).map fun g => g.children.map Elem.tag)
        = some (some ["rect"]) := by
  refine ⟨?_, ?_, ?_⟩ <;> with_unfolding_all decide

/-- C5 (amended): when image bytes are supplied and the fill carries no
`url(#...)` pattern reference at all, the container is converted in place
into a Direct `image` element holding the payload and the render proceeds;
when the fill names a pattern that is missing from the document, the slot
is left un-converted (warning only) and the render also proceeds. -/
theorem fill_unresolved_direct_fallback (payload : String)
    (dec : Option (ℕ × ℕ)) :
    ((injectImage noUrlFillRoot (some ⟨payload, dec⟩) 170 400).map fun r =>
        (findById "main_image" r.1).map fun g =>
          g.children.map fun c => (c.tag, c.getAttr "href"))
      = some (some [("image", some (.str payload))]) ∧
    ((injectImage missingPatternRoot (some ⟨payload, dec⟩) 170 400).map
        fun r =>
        (findById "main_image" r.1).map fun g => g.children.map Elem.tag)
      = some (some ["rect"]) := by
  constructor
  · rfl
  · rfl

/-- C6 counterexample: with a template whose image resource declares width
0, undecodable image bytes abort the build (`ZeroDivisionError` in the
pattern-scale fallback) while the same build with no image succeeds — so a
decode failure is not always equivalent to "no image was supplied". -/
theorem decode_failure_can_abort_on_zero_dims :
    buildFinalHeight zeroWidthResRoot "hi".data (some ⟨"data:bad", none⟩) ""
        = none ∧
      buildFinalHeight zeroWidthResRoot "hi".data none "" = some 800 := by
  constructor <;> with_unfolding_all decide

set_option maxHeartbeats 3200000 in
/-- C6 (amended): when the supplied image bytes cannot be decoded, the
injectors catch the error and return exactly the geometry of the no-image
run — the slot keeps its declared height — and the build completes with the
same final height, provided the pattern fallback's intrinsic dimensions are
nonzero (as in any real template).  Shown for the Direct injector on an
arbitrary element, for the PatternIndirect family, and for the whole build
on the demo template. -/
theorem decode_failure_degrades_to_no_image (payload : String) (el : Elem)
    (newY svgW : ℚ) :
    (injectImageSimple el (some ⟨payload, none⟩) newY svgW).2 =
        (injectImageSimple el none newY svgW).2 ∧
      (injectImage useFigmaRoot (some ⟨payload, none⟩) newY svgW).map Prod.snd
        = (injectImage useFigmaRoot none newY svgW).map Prod.snd ∧
      (injectImage useFigmaRoot (some ⟨payload, none⟩) newY svgW).isSome ∧
      buildFinalHeight demoRoot "hi".data (some ⟨"data:bad", none⟩) ""
        = some 800 ∧
      buildFinalHeight demoRoot "hi".data none "" = some 800 := by
  refine ⟨rfl, ?_, ?_, ?_, ?_⟩
  · with_unfolding_all rfl
  · with_unfolding_all rfl
  · with_unfolding_all decide
  · with_unfolding_all decide

end CardBuilder
